import Mathlib

/-!
Shallow embedding of the wiinote Wiimote HID client.

The embedding covers:
* `src/src/report.rs` — the report codec: `Buttons`, `Lights` (including
  `Lights.scale`), `InputReport::parse` (modelled as a function from a byte
  buffer to either a `ReportError` or a parsed report together with the final
  cursor position), `OutputReport`.
* `src/old/src/connection.rs` — `Connection::parse_report` (buffer handling
  around the codec) and `Connection::read_report` (the read-parse-retry loop;
  the stream is modelled as the list of chunks successive reads return, an
  exhausted list or an empty chunk standing for a zero-length read).
* `src/src/wiimote.rs` — the controller state machine: `set_mode`,
  `send_heartbeat`, `set_lights`, and the body of the `run` loop that handles
  one received report (`run_step`).

Bytes are `Nat` values (< 256 by construction of the inputs considered);
16-bit reads are big-endian as in `bytes::Buf::get_u16`.
-/

/-- `ReportError` from `src/src/report.rs`. -/
inductive ReportError : Type
  | Incomplete : ReportError
  | InvalidTransHeader : Nat → ReportError
  | UnknownReportType : Nat → ReportError
deriving DecidableEq, Repr

namespace Buttons

/-- Button bit positions, from the `bitflags!` block in `src/src/report.rs`. -/
def UP : Nat := 1 <<< 11

def DOWN : Nat := 1 <<< 10

def LEFT : Nat := 1 <<< 8

def RIGHT : Nat := 1 <<< 9

def A : Nat := 1 <<< 3

def B : Nat := 1 <<< 2

def PLUS : Nat := 1 <<< 12

def HOME : Nat := 1 <<< 7

def MINUS : Nat := 1 <<< 4

def ONE : Nat := 1 <<< 1

def TWO : Nat := 1 <<< 0

/-- The union of all defined button flags (what `bitflags` calls `all`). -/
def mask : Nat :=
  UP ||| DOWN ||| LEFT ||| RIGHT ||| A ||| B ||| PLUS ||| HOME ||| MINUS ||| ONE ||| TWO

/-- `Buttons::from_bits_truncate`: keep only the defined flag bits. -/
def from_bits_truncate (v : Nat) : Nat := v &&& mask

/-- `Buttons::from_common`: read a big-endian `u16` and truncate to the
defined flags.  The two bytes are passed explicitly (the cursor has already
been advanced by the caller model). -/
def from_common (hi lo : Nat) : Nat := from_bits_truncate (hi * 256 + lo)

end Buttons

namespace Lights

/-- Light bit positions, from the `bitflags!` block in `src/src/report.rs`. -/
def ONE : Nat := 1 <<< 0

def TWO : Nat := 1 <<< 1

def THREE : Nat := 1 <<< 2

def FOUR : Nat := 1 <<< 3

/-- `Lights::all()`. -/
def all : Nat := ONE ||| TWO ||| THREE ||| FOUR

/-- `Lights::scale`: represents the given `u8` value as a linear scale on the
four Wiimote lights.  Mirrors the source: `bits = value >> 6`, then
`enabled` starts at `1` and the loop `for i in 0..=bits` ORs in `1 << i`. -/
def scale (value : Nat) : Nat :=
  let bits := value >>> 6
  (List.range (bits + 1)).foldl (fun enabled i => enabled ||| (1 <<< i)) 1

end Lights

/-- `InputReport` from `src/src/report.rs`.  Button and light fields are the
underlying bit sets as `Nat`. -/
inductive InputReport : Type
  | Status : (buttons : Nat) → (lights : Nat) → (battery : Nat) →
      (plugged_ext : Bool) → (speaker_enabled : Bool) → (ir_enabled : Bool) → InputReport
  | Drm : (buttons : Nat) → (mode : Nat) → InputReport
  | Result : (buttons : Nat) → (response_to : Nat) → (code : Nat) → InputReport
deriving DecidableEq, Repr

namespace InputReport

/-- `InputReport::buttons`. -/
def buttons : InputReport → Nat
  | .Status b _ _ _ _ _ => b
  | .Drm b _ => b
  | .Result b _ _ => b

end InputReport

/-- Payload length (bytes after the tag byte) declared for each supported
report tag; for the periodic tags this is the table in the inner `match` of
`InputReport::parse`, for `0x20`/`0x22` the `ensure_readable` argument. -/
def frameLen (tag : Nat) : Nat :=
  if tag = 0x20 then 6
  else if tag = 0x22 then 4
  else if tag = 0x30 then 2
  else if tag = 0x31 then 5
  else if tag = 0x32 then 10
  else if tag = 0x33 then 17
  else 21

/-- The set of report tags `InputReport::parse` accepts. -/
def supportedTag (tag : Nat) : Prop :=
  tag = 0x20 ∨ tag = 0x22 ∨ (0x30 ≤ tag ∧ tag ≤ 0x37) ∨ (0x3D ≤ tag ∧ tag ≤ 0x3F)

instance (tag : Nat) : Decidable (supportedTag tag) := by
  unfold supportedTag; infer_instance

/-- `InputReport::parse` from `src/src/report.rs`, modelled on a byte list.
On success it returns the parsed report together with the final cursor
position (number of consumed bytes).  The `ensure_readable` calls of the
source appear as the `length - 2 < len` tests (`remaining` after the two
header bytes is `src.length - 2`). -/
def parse (src : List Nat) : Except ReportError (InputReport × Nat) :=
  if src.length < 3 then .error .Incomplete
  else
    let trans_header := src.getD 0 0
    if trans_header ≠ 0xA1 then .error (.InvalidTransHeader trans_header)
    else
      let id := src.getD 1 0
      if id = 0x20 then
        if src.length - 2 < 6 then .error .Incomplete
        else
          let buttons := Buttons.from_common (src.getD 2 0) (src.getD 3 0)
          let status := src.getD 4 0
          -- two unknown bytes (always zero) are skipped; battery is byte 7
          .ok (.Status buttons (status >>> 4) (src.getD 7 0)
                (status &&& (1 <<< 1) != 0) (status &&& (1 <<< 2) != 0)
                (status &&& (1 <<< 3) != 0), 8)
      else if id = 0x22 then
        if src.length - 2 < 4 then .error .Incomplete
        else
          .ok (.Result (Buttons.from_common (src.getD 2 0) (src.getD 3 0))
                (src.getD 4 0) (src.getD 5 0), 6)
      else if (0x30 ≤ id ∧ id ≤ 0x37) ∨ (0x3D ≤ id ∧ id ≤ 0x3F) then
        let len := frameLen id
        if src.length - 2 < len then .error .Incomplete
        else
          let buttons :=
            if id ≠ 0x3D then Buttons.from_common (src.getD 2 0) (src.getD 3 0)
            else 0
          -- the remaining `len - 2` bytes are skipped unparsed
          .ok (.Drm buttons id, 2 + len)
      else .error (.UnknownReportType id)

/-! ### Transport layer: `src/old/src/connection.rs` -/

/-- Error channel of the connection layer: a codec error carried through
`anyhow`, or the `io::ErrorKind::ConnectionReset` raised in `read_report`. -/
inductive ConnError : Type
  | Report : ReportError → ConnError
  | ConnectionReset : ConnError
deriving DecidableEq, Repr

/-- `Connection::parse_report`: run the codec on the buffered bytes.  On
success, drop the consumed prefix from the buffer; `Incomplete` becomes
`Ok(None)` (keep buffering); any other codec error propagates.  The pair's
second component is the buffer after the call (`self.buffer` is mutated in
the source). -/
def parse_report (buffer : List Nat) : Except ReportError (Option InputReport) × List Nat :=
  match parse buffer with
  | .ok (report, len) => (.ok (some report), buffer.drop len)
  | .error .Incomplete => (.ok none, buffer)
  | .error e => (.error e, buffer)

/-- `Connection::read_report`: loop { parse buffered data; on a frame return
it; otherwise read more bytes }.  The stream is the list of chunks successive
`read_buf` calls return; an exhausted list or an empty chunk is a zero-length
read (peer closed the channel): clean end of stream (`Ok(None)`) when the
buffer is empty, `ConnectionReset` otherwise.  Returns the result together
with the remaining buffer. -/
def read_report (buf : List Nat) : List (List Nat) → Except ConnError (Option InputReport × List Nat)
  | [] =>
      match parse_report buf with
      | (.error e, _) => .error (.Report e)
      | (.ok (some report), rest) => .ok (some report, rest)
      | (.ok none, _) =>
          if buf.isEmpty then .ok (none, buf) else .error .ConnectionReset
  | chunk :: chunks =>
      match parse_report buf with
      | (.error e, _) => .error (.Report e)
      | (.ok (some report), rest) => .ok (some report, rest)
      | (.ok none, _) =>
          if chunk.isEmpty then
            if buf.isEmpty then .ok (none, buf) else .error .ConnectionReset
          else read_report (buf ++ chunk) chunks

/-! ### Controller state machine: `src/src/wiimote.rs` -/

/-- `LightsMode`. -/
inductive LightsMode : Type
  | Battery : LightsMode
  | Connection : LightsMode
deriving DecidableEq, Repr

/-- `OutputReport` from `src/src/report.rs` (the commands the controller
sends; encoding to bytes is not needed by the claims). -/
inductive OutputReport : Type
  | SetLights : Nat → OutputReport
  | SetDrm : (lights : Nat) → (mode : Nat) → OutputReport
  | RequestStatus : (lights : Nat) → OutputReport
deriving DecidableEq, Repr

/-- The mutable fields of `Wiimote` (the connection handle is the
environment, not state). -/
structure WiimoteState : Type where
  mode : LightsMode
  prev_lights : Nat
  awaiting_status : Bool
deriving DecidableEq, Repr

/-- `(rssi * u8::MAX as i16 / -80) as u8` — i16 division truncates toward
zero (`Int.div`), the `as u8` cast keeps the low 8 bits. -/
def rssiLevel (rssi : Int) : Nat :=
  (Int.tdiv (rssi * 255) (-80)).emod 256 |>.toNat

/-- `Wiimote::set_lights`: record the pattern in `prev_lights` and emit a
`SetLights` command. -/
def set_lights (s : WiimoteState) (enabled : Nat) : WiimoteState × List OutputReport :=
  ({ s with prev_lights := enabled }, [OutputReport.SetLights enabled])

/-- `Wiimote::send_heartbeat`: emit `RequestStatus{lights: prev_lights}`, set
`awaiting_status`; in `Connection` mode additionally derive a lamp pattern
from the RSSI reading and command it via `set_lights`.  `rssi` is the
`device().rssi()` reading with `unwrap_or(0)` already applied. -/
def send_heartbeat (rssi : Int) (s : WiimoteState) : WiimoteState × List OutputReport :=
  let s1 : WiimoteState := { s with awaiting_status := true }
  match s1.mode with
  | .Connection =>
      let level := rssiLevel rssi
      let (s2, out2) := set_lights s1 (Lights.scale (level ^^^ 255))
      (s2, OutputReport.RequestStatus s1.prev_lights :: out2)
  | .Battery => (s1, [OutputReport.RequestStatus s1.prev_lights])

/-- `Wiimote::set_mode`, exactly as written in the source: the guard returns
early when the requested mode DIFFERS from the current one, then sets
`self.mode = mode` (necessarily a no-op) and re-runs the heartbeat step. -/
def set_mode (rssi : Int) (s : WiimoteState) (mode : LightsMode) : WiimoteState × List OutputReport :=
  if s.mode ≠ mode then (s, [])
  else send_heartbeat rssi { s with mode := mode }

/-- The body of `Wiimote::run` handling one received report (lines 65–93 of
`src/src/wiimote.rs`): forward buttons to the keyboard (external sink, not
modelled), dispatch `Buttons::ONE`/`Buttons::TWO` to `set_mode`, then handle
a `Status` frame.  Returns the new state and the list of commands written to
the connection, in order. -/
def run_step (rssi : Int) (s : WiimoteState) (report : InputReport) : WiimoteState × List OutputReport :=
  let btns := report.buttons
  let (s1, out1) :=
    if btns = Buttons.ONE then set_mode rssi s LightsMode.Battery
    else if btns = Buttons.TWO then set_mode rssi s LightsMode.Connection
    else (s, [])
  match report with
  | .Status _ _ battery _ _ _ =>
      if s1.awaiting_status then
        let s2 := { s1 with awaiting_status := false }
        if s2.mode = LightsMode.Battery then
          let (s3, out3) := set_lights s2 (Lights.scale battery)
          (s3, out1 ++ out3)
        else (s2, out1)
      else (s1, out1 ++ [OutputReport.SetDrm s1.prev_lights 0x30])
  | _ => (s1, out1)

/-- How `Wiimote::run` (lines 49–63) reacts to one `read_report` outcome:
an error propagates out of `run` via `?`; `Ok(None)` (clean peer close)
returns `Ok(())`; a report continues the loop body. -/
inductive RunOutcome : Type
  | continueWith : InputReport → RunOutcome
  | terminatedOk : RunOutcome
  | failed : ConnError → RunOutcome
deriving DecidableEq, Repr

/-- The `run` loop's classification of a `read_report` result. -/
def run_recv (res : Except ConnError (Option InputReport × List Nat)) : RunOutcome :=
  match res with
  | .error e => .failed e
  | .ok (none, _) => .terminatedOk
  | .ok (some report, _) => .continueWith report

/-- The buffer holds fewer bytes than the current frame requires at some
decode step: either the three leading bytes every report carries are not all
there, or the header and tag are valid but the declared frame length exceeds
the buffered bytes (`ensure_readable` fails). -/
def needsMoreBytes (buf : List Nat) : Prop :=
  buf.length < 3 ∨
    (buf.getD 0 0 = 0xA1 ∧ supportedTag (buf.getD 1 0) ∧
      buf.length < 2 + frameLen (buf.getD 1 0))

/-! ### Claims -/

/-- C3 counterexample: the field `0x1084` has bits 12, 7 and 2 set, which are
the Plus, Home and B positions — it does NOT decode to {Plus, Left, B}
(that set is the field `0x1104`). -/
theorem C3_field_1084_has_home :
    Buttons.from_bits_truncate 0x1084 ≠ (Buttons.PLUS ||| Buttons.LEFT ||| Buttons.B) ∧
    Buttons.from_bits_truncate 0x1084 = (Buttons.PLUS ||| Buttons.HOME ||| Buttons.B) ∧
    (Buttons.PLUS ||| Buttons.LEFT ||| Buttons.B) = 0x1104 := by decide

/-- C3 (amended): decoding the 16-bit button field maps each set bit at the
named positions (Two=0, One=1, B=2, A=3, Minus=4, Home=7, Left=8, Right=9,
Down=10, Up=11, Plus=12) to the corresponding flag; the field `0x0800`
decodes to {Up} only, `0x0004` to {B} only, and `0x1084` to
{Plus, Home, B}. -/
theorem C3_button_decode :
    Buttons.from_bits_truncate 0x0800 = Buttons.UP ∧
    Buttons.from_bits_truncate 0x0004 = Buttons.B ∧
    Buttons.from_bits_truncate 0x1084 = (Buttons.PLUS ||| Buttons.HOME ||| Buttons.B) ∧
    Buttons.TWO = 1 <<< 0 ∧ Buttons.ONE = 1 <<< 1 ∧ Buttons.B = 1 <<< 2 ∧
    Buttons.A = 1 <<< 3 ∧ Buttons.MINUS = 1 <<< 4 ∧ Buttons.HOME = 1 <<< 7 ∧
    Buttons.LEFT = 1 <<< 8 ∧ Buttons.RIGHT = 1 <<< 9 ∧ Buttons.DOWN = 1 <<< 10 ∧
    Buttons.UP = 1 <<< 11 ∧ Buttons.PLUS = 1 <<< 12 ∧
    Buttons.from_bits_truncate (1 <<< 11) = Buttons.UP ∧
    Buttons.from_bits_truncate (1 <<< 10) = Buttons.DOWN ∧
    Buttons.from_bits_truncate (1 <<< 8) = Buttons.LEFT ∧
    Buttons.from_bits_truncate (1 <<< 9) = Buttons.RIGHT ∧
    Buttons.from_bits_truncate (1 <<< 3) = Buttons.A ∧
    Buttons.from_bits_truncate (1 <<< 2) = Buttons.B ∧
    Buttons.from_bits_truncate (1 <<< 12) = Buttons.PLUS ∧
    Buttons.from_bits_truncate (1 <<< 7) = Buttons.HOME ∧
    Buttons.from_bits_truncate (1 <<< 4) = Buttons.MINUS ∧
    Buttons.from_bits_truncate (1 <<< 1) = Buttons.ONE ∧
    Buttons.from_bits_truncate (1 <<< 0) = Buttons.TWO := by decide

/-- C5: `Lights.scale` is the monotonic quantization `bucket = level >> 6`,
lighting lamp 1 plus lamps 2..=(1+bucket) (i.e. the value `2^(bucket+1) - 1`),
with the six stated concrete values, and `scale a ⊆ scale b` whenever
`a ≤ b` (subset as bit sets: `scale a &&& scale b = scale a`). -/
theorem C5_lights_scale (a b : Nat) (ha : a < 256) (hb : b < 256) (hab : a ≤ b) :
    Lights.scale 0 = Lights.ONE ∧
    Lights.scale 63 = Lights.ONE ∧
    Lights.scale 64 = (Lights.ONE ||| Lights.TWO) ∧
    Lights.scale 127 = (Lights.ONE ||| Lights.TWO) ∧
    Lights.scale 191 = (Lights.ONE ||| Lights.TWO ||| Lights.THREE) ∧
    Lights.scale 255 = (Lights.ONE ||| Lights.TWO ||| Lights.THREE ||| Lights.FOUR) ∧
    (∀ level, level < 256 → Lights.scale level = 2 ^ (level >>> 6 + 1) - 1) ∧
    Lights.scale a &&& Lights.scale b = Lights.scale a := by
  have key : ∀ level, level < 256 → Lights.scale level = 2 ^ (level >>> 6 + 1) - 1 := by
    intro level hl
    have hs : level >>> 6 = level / 64 := by
      rw [Nat.shiftRight_eq_div_pow]
    have hb4 : level >>> 6 < 4 := by omega
    have hrepr : Lights.scale level =
        (List.range (level >>> 6 + 1)).foldl (fun enabled i => enabled ||| (1 <<< i)) 1 := rfl
    rw [hrepr]
    generalize level >>> 6 = k at hb4 ⊢
    interval_cases k <;> decide
  refine ⟨by decide, by decide, by decide, by decide, by decide, by decide, key, ?_⟩
  rw [key a ha, key b hb]
  have hsa : a >>> 6 = a / 64 := by rw [Nat.shiftRight_eq_div_pow]
  have hsb : b >>> 6 = b / 64 := by rw [Nat.shiftRight_eq_div_pow]
  have h1 : a >>> 6 ≤ b >>> 6 := by
    rw [hsa, hsb]; exact Nat.div_le_div_right hab
  have h2 : a >>> 6 < 4 := by omega
  have h3 : b >>> 6 < 4 := by omega
  generalize a >>> 6 = ka at h1 h2
  generalize b >>> 6 = kb at h1 h3
  interval_cases ka <;> interval_cases kb <;> decide

/-- C5 witness. -/
theorem C5_lights_scale_witness :
    Lights.scale 63 = Lights.ONE ∧ Lights.scale 63 &&& Lights.scale 200 = Lights.scale 63 :=
  ⟨(C5_lights_scale 63 200 (by decide) (by decide) (by decide)).2.1,
   (C5_lights_scale 63 200 (by decide) (by decide) (by decide)).2.2.2.2.2.2.2⟩

/-- C2: the claim says a report whose buttons equal exactly {Two} switches
the mode to ConnectionQuality and immediately sends `RequestStatus`.  The
code's guard in `Wiimote::set_mode` returns early exactly when the requested
mode differs from the current one, so from the reachable state
(`mode = Battery`) the {Two} press neither switches the mode nor sends any
command: -/
theorem C2_two_button_no_mode_switch :
    run_step 0 ⟨LightsMode.Battery, Lights.all, false⟩ (InputReport.Drm Buttons.TWO 0x30) =
      (⟨LightsMode.Battery, Lights.all, false⟩, []) ∧
    run_step 0 ⟨LightsMode.Battery, Lights.all, false⟩ (InputReport.Drm Buttons.ONE 0x30) =
      (⟨LightsMode.Battery, Lights.all, true⟩, [OutputReport.RequestStatus Lights.all]) := by
  decide

/-- C4 counterexample: with `mode = Battery`, `awaiting_status = true` and an
incoming `Status` frame with `battery = 200`, the controller DOES command all
four lamps (`Lights.scale 200` = all four, since `200 >> 6 = 3`), contrary to
the claim that the `SetLights` it issues does not light all four. -/
theorem C4_battery200_all_lamps :
    run_step 0 ⟨LightsMode.Battery, Lights.all, true⟩
        (InputReport.Status 0 15 200 false false false) =
      (⟨LightsMode.Battery, Lights.all, false⟩, [OutputReport.SetLights Lights.all]) ∧
    Lights.scale 200 = Lights.all := by decide

/-- C4 (amended): with `mode = Battery` and `awaiting_status = true`, a
`Status` frame with `battery = 200` or `battery = 192` (both in the 192..255
band) clears `awaiting_status` and issues exactly one `SetLights` command
lighting all four lamps. -/
theorem C4_amended_battery_bands (s : WiimoteState) (btns lights battery : Nat)
    (p sp ir : Bool) (rssi : Int)
    (hmode : s.mode = LightsMode.Battery) (hawait : s.awaiting_status = true)
    (h1 : btns ≠ Buttons.ONE) (h2 : btns ≠ Buttons.TWO)
    (hbat : battery = 200 ∨ battery = 192) :
    run_step rssi s (InputReport.Status btns lights battery p sp ir) =
      ({ s with awaiting_status := false, prev_lights := Lights.all },
       [OutputReport.SetLights Lights.all]) := by
  obtain ⟨m, pl, aw⟩ := s
  simp only [WiimoteState.mk.injEq] at hmode hawait ⊢
  subst hmode; subst hawait
  have hs200 : Lights.scale 200 = Lights.all := by decide
  have hs192 : Lights.scale 192 = Lights.all := by decide
  rcases hbat with h | h <;> subst h <;>
    simp [run_step, InputReport.buttons, h1, h2, set_lights, hs200, hs192]

/-- C4 witness. -/
theorem C4_amended_witness :
    run_step 0 ⟨LightsMode.Battery, 1, true⟩ (InputReport.Status 0 0 192 false false false) =
      (⟨LightsMode.Battery, Lights.all, false⟩, [OutputReport.SetLights Lights.all]) := by
  exact C4_amended_battery_bands ⟨LightsMode.Battery, 1, true⟩ 0 0 192 false false false 0
    rfl rfl (by decide) (by decide) (Or.inr rfl)

/-- C6 counterexample: a `Status` frame received with `awaiting_status =
false` but whose buttons equal exactly {One} first triggers the immediate
heartbeat (which sets `awaiting_status`), so the handler takes the solicited
branch: no `SetDrm` is emitted and `prev_lights` is changed (from all-on to
lamp 1 via `scale(battery = 0)`). -/
theorem C6_status_with_one_button :
    run_step 0 ⟨LightsMode.Battery, Lights.all, false⟩
        (InputReport.Status Buttons.ONE 0 0 false false false) =
      (⟨LightsMode.Battery, Lights.ONE, false⟩,
       [OutputReport.RequestStatus Lights.all, OutputReport.SetLights Lights.ONE]) := by
  decide

/-- C6 (amended): for every `Status` frame received while `awaiting_status =
false` whose button set does not trigger the immediate heartbeat path (not
exactly {One} while `mode = Battery`, and not exactly {Two} while `mode =
Connection`), the controller emits exactly one command, `SetDrm{lights:
prev_lights, mode: 0x30}`, and its state — `prev_lights` included — is
unchanged. -/
theorem C6_amended_unsolicited_status (s : WiimoteState) (btns lights battery : Nat)
    (p sp ir : Bool) (rssi : Int)
    (hawait : s.awaiting_status = false)
    (h1 : ¬(btns = Buttons.ONE ∧ s.mode = LightsMode.Battery))
    (h2 : ¬(btns = Buttons.TWO ∧ s.mode = LightsMode.Connection)) :
    run_step rssi s (InputReport.Status btns lights battery p sp ir) =
      (s, [OutputReport.SetDrm s.prev_lights 0x30]) := by
  by_cases hone : btns = Buttons.ONE
  · have hm : s.mode ≠ LightsMode.Battery := fun hc => h1 ⟨hone, hc⟩
    simp [run_step, InputReport.buttons, hone, set_mode, hm, hawait]
  · by_cases htwo : btns = Buttons.TWO
    · have hm : s.mode ≠ LightsMode.Connection := fun hc => h2 ⟨htwo, hc⟩
      have hot : (Buttons.TWO = Buttons.ONE) = False := by decide
      simp [run_step, InputReport.buttons, htwo, hot, set_mode, hm, hawait]
    · simp [run_step, InputReport.buttons, hone, htwo, hawait]

/-- Any bit pattern fixed by the button mask fits in 16 bits and splits into
its big-endian byte pair. -/
lemma buttons_byte_split (b : Nat) (hbm : b &&& Buttons.mask = b) :
    (b >>> 8) * 256 + b % 256 = b ∧ Buttons.from_common (b >>> 8) (b % 256) = b := by
  have h8 : b >>> 8 = b / 256 := by rw [Nat.shiftRight_eq_div_pow]
  have hsplit : (b >>> 8) * 256 + b % 256 = b := by rw [h8]; omega
  refine ⟨hsplit, ?_⟩
  unfold Buttons.from_common Buttons.from_bits_truncate
  rw [hsplit, hbm]

/-- C1: parsing a frame assembled from the exact fields of a valid report
(marker `0xA1`, a supported tag, and a payload of the tag's declared length)
succeeds, consumes exactly `2 + frameLen tag` bytes, and returns the fields
used to build the frame; for periodic tags only the leading 2-byte button
field is decoded, and tag `0x3D` yields empty buttons while still consuming
its full frame. -/
theorem C1_parse_valid_frames (b st r1 r2 bat rt code tag : Nat) (rest : List Nat)
    (hbm : b &&& Buttons.mask = b)
    (htag : (0x30 ≤ tag ∧ tag ≤ 0x37) ∨ (0x3D ≤ tag ∧ tag ≤ 0x3F))
    (hrest : rest.length = frameLen tag - 2) :
    parse [0xA1, 0x20, b >>> 8, b % 256, st, r1, r2, bat] =
      .ok (.Status b (st >>> 4) bat (st &&& (1 <<< 1) != 0) (st &&& (1 <<< 2) != 0)
            (st &&& (1 <<< 3) != 0), 2 + 6) ∧
    parse [0xA1, 0x22, b >>> 8, b % 256, rt, code] = .ok (.Result b rt code, 2 + 4) ∧
    parse (0xA1 :: tag :: (b >>> 8) :: (b % 256) :: rest) =
      .ok (.Drm (if tag = 0x3D then 0 else b) tag, 2 + frameLen tag) := by
  obtain ⟨-, hcommon⟩ := buttons_byte_split b hbm
  refine ⟨by simp [parse, hcommon], by simp [parse, hcommon], ?_⟩
  rcases htag with ⟨hlo, hhi⟩ | ⟨hlo, hhi⟩ <;> interval_cases tag <;>
    simp_all [parse, frameLen, hcommon]

/-- C1 witness. -/
theorem C1_parse_valid_frames_witness :
    parse [0xA1, 0x20, 0, 4, 0x72, 0, 0, 200] =
      .ok (.Status 4 7 200 true false false, 8) ∧
    parse [0xA1, 0x22, 0, 4, 0x16, 3] = .ok (.Result 4 0x16 3, 6) ∧
    parse [0xA1, 0x31, 0, 4, 9, 9, 9] = .ok (.Drm 4 0x31, 7) := by
  have h := C1_parse_valid_frames 4 0x72 0 0 200 0x16 3 0x31 [9, 9, 9]
    (by decide) (Or.inl ⟨by decide, by decide⟩) (by decide)
  exact ⟨h.1, h.2.1, h.2.2⟩

/-- `parse` only succeeds when the declared frame fits in the buffer, and the
reported cursor position never exceeds the buffer length. -/
lemma parse_ok_len_le (buf : List Nat) (report : InputReport) (len : Nat)
    (h : parse buf = .ok (report, len)) : len ≤ buf.length := by
  simp only [parse] at h
  split_ifs at h <;>
    first
      | exact Except.noConfusion h
      | (rw [Except.ok.injEq, Prod.mk.injEq] at h; obtain ⟨-, h2⟩ := h; omega)

/-- C10: the connection buffer holds only unconsumed bytes.  On a successful
parse, `parse_report` removes exactly the consumed length from the front of
the buffer (the consumed length never exceeds what is buffered, and the kept
remainder is exactly the rest); on every non-success outcome (`Incomplete`,
i.e. `Ok(None)`, or a fatal error) the buffer is unchanged. -/
theorem C10_buffer_discipline (buf : List Nat) :
    (∀ report len, parse buf = .ok (report, len) →
        len ≤ buf.length ∧
        parse_report buf = (.ok (some report), buf.drop len) ∧
        buf.take len ++ (parse_report buf).2 = buf) ∧
    ((parse_report buf).1 = .ok none → (parse_report buf).2 = buf) ∧
    (∀ e, (parse_report buf).1 = .error e → (parse_report buf).2 = buf) := by
  refine ⟨fun report len h => ?_, ?_, ?_⟩
  · have hle := parse_ok_len_le buf report len h
    have hpr : parse_report buf = (.ok (some report), buf.drop len) := by
      simp [parse_report, h]
    exact ⟨hle, hpr, by rw [hpr]; exact List.take_append_drop len buf⟩
  · intro hnone
    unfold parse_report at hnone ⊢
    cases hp : parse buf with
    | ok v => simp [hp] at hnone
    | error e => cases e <;> simp [hp] at hnone ⊢
  · intro e he
    unfold parse_report at he ⊢
    cases hp : parse buf with
    | ok v => simp [hp] at he
    | error e2 => cases e2 <;> simp [hp] at he ⊢

/-- C10 witness. -/
theorem C10_buffer_discipline_witness :
    parse_report [0xA1, 0x30, 0, 4, 0xA1] = (.ok (some (.Drm 4 0x30)), [0xA1]) :=
  ((C10_buffer_discipline [0xA1, 0x30, 0, 4, 0xA1]).1 (.Drm 4 0x30) 4 (by rfl)).2.1

/-- C6 witness. -/
theorem C6_amended_witness :
    run_step 0 ⟨LightsMode.Battery, Lights.all, false⟩
        (InputReport.Status 0 0 77 false false false) =
      (⟨LightsMode.Battery, Lights.all, false⟩, [OutputReport.SetDrm Lights.all 0x30]) := by
  exact C6_amended_unsolicited_status ⟨LightsMode.Battery, Lights.all, false⟩ 0 0 77
    false false false 0 rfl (by decide) (by decide)

/-- A buffer that satisfies `needsMoreBytes` makes `parse` return
`Incomplete`. -/
lemma parse_incomplete_of_needsMore (buf : List Nat) (h : needsMoreBytes buf) :
    parse buf = .error .Incomplete := by
  by_cases h3 : buf.length < 3
  · simp [parse, h3]
  · rcases h with h | ⟨h0, htag, hlen⟩
    · exact absurd h h3
    · rcases buf with _ | ⟨a, _ | ⟨t, _ | ⟨c, rest⟩⟩⟩
      · simp at h3
      · simp at h3
      · simp at h3
      · simp only [List.getD_cons_zero, List.getD_cons_succ, List.length_cons] at h0 htag hlen
        subst h0
        unfold supportedTag at htag
        rcases htag with h20 | h22 | hr
        · subst h20
          norm_num [frameLen] at hlen
          simp only [parse, List.getD_cons_zero, List.getD_cons_succ, List.length_cons]
          split_ifs <;> first | rfl | omega
        · subst h22
          norm_num [frameLen] at hlen
          simp only [parse, List.getD_cons_zero, List.getD_cons_succ, List.length_cons]
          split_ifs <;> first | rfl | omega
        · simp only [parse, List.getD_cons_zero, List.getD_cons_succ, List.length_cons]
          split_ifs <;> first | rfl | omega

/-- `Connection::parse_report` never exposes `Incomplete` in its error
channel (it becomes `Ok(None)`). -/
lemma parse_report_fst_ne_incomplete (buf : List Nat) :
    (parse_report buf).1 ≠ .error .Incomplete := by
  unfold parse_report
  cases hp : parse buf with
  | ok v => obtain ⟨r, l⟩ := v; simp
  | error e => cases e <;> simp

/-- `Connection::read_report` never returns the `Incomplete` codec error. -/
lemma read_report_never_incomplete (buf : List Nat) (chunks : List (List Nat)) :
    read_report buf chunks ≠ .error (.Report .Incomplete) := by
  induction chunks generalizing buf with
  | nil =>
      have hne := parse_report_fst_ne_incomplete buf
      rcases hp : parse_report buf with ⟨fst, r2⟩
      rw [hp] at hne
      rcases fst with e | o
      · cases e with
        | Incomplete => exact absurd rfl hne
        | InvalidTransHeader i => simp [read_report, hp]
        | UnknownReportType i => simp [read_report, hp]
      · rcases o with _ | r
        · simp only [read_report, hp]
          split_ifs <;> simp
        · simp [read_report, hp]
  | cons c cs ih =>
      have hne := parse_report_fst_ne_incomplete buf
      rcases hp : parse_report buf with ⟨fst, r2⟩
      rw [hp] at hne
      rcases fst with e | o
      · cases e with
        | Incomplete => exact absurd rfl hne
        | InvalidTransHeader i => simp [read_report, hp]
        | UnknownReportType i => simp [read_report, hp]
      · rcases o with _ | r
        · simp only [read_report, hp]
          split_ifs <;> first | exact ih (buf ++ c) | simp
        · simp [read_report, hp]

/-- C7: whenever the buffer holds fewer bytes than the current frame
requires at any decode step, `parse` returns `Incomplete`; the connection's
`parse_report` maps that to `Ok(None)` with the buffer untouched, the read
loop reacts by appending the next read's bytes and retrying the whole parse
from the start of the (grown) buffer, and `read_report` never returns
`Incomplete` to its caller. -/
theorem C7_incomplete_is_retry (buf : List Nat) (h : needsMoreBytes buf) :
    parse buf = .error .Incomplete ∧
    parse_report buf = (.ok none, buf) ∧
    (∀ chunk chunks, chunk ≠ [] →
        read_report buf (chunk :: chunks) = read_report (buf ++ chunk) chunks) ∧
    (∀ b ch, read_report b ch ≠ .error (.Report .Incomplete)) := by
  have hp := parse_incomplete_of_needsMore buf h
  have hpr : parse_report buf = (.ok none, buf) := by simp [parse_report, hp]
  refine ⟨hp, hpr, fun chunk chunks hc => ?_, read_report_never_incomplete⟩
  rcases chunk with _ | ⟨x, xs⟩
  · exact absurd rfl hc
  · simp [read_report, hpr]

/-- C7 witness. -/
theorem C7_incomplete_is_retry_witness :
    parse [0xA1, 0x20] = .error .Incomplete ∧
    read_report [0xA1, 0x20] [[0x30]] = read_report [0xA1, 0x20, 0x30] [] ∧
    read_report [0xA5] [] ≠ .error (.Report .Incomplete) := by
  have h := C7_incomplete_is_retry [0xA1, 0x20] (Or.inl (by decide))
  exact ⟨h.1, h.2.2.1 [0x30] [] (by decide), h.2.2.2 [0xA5] []⟩

/-- C8: a complete frame whose marker byte is not `0xA1` parses to
`InvalidTransHeader`, and a frame with marker `0xA1` but an unsupported tag
parses to `UnknownReportType`; `read_report` surfaces both as errors instead
of retrying. -/
theorem C8_fatal_errors (m t c tag : Nat) (rest : List Nat) (chunks : List (List Nat))
    (hm : m ≠ 0xA1) (htag : ¬ supportedTag tag) :
    parse (m :: t :: c :: rest) = .error (.InvalidTransHeader m) ∧
    parse (0xA1 :: tag :: c :: rest) = .error (.UnknownReportType tag) ∧
    read_report (m :: t :: c :: rest) chunks = .error (.Report (.InvalidTransHeader m)) ∧
    read_report (0xA1 :: tag :: c :: rest) chunks =
      .error (.Report (.UnknownReportType tag)) := by
  have hlen1 : ¬((m :: t :: c :: rest).length < 3) := by
    simp only [List.length_cons]; omega
  have hlen2 : ¬((0xA1 :: tag :: c :: rest).length < 3) := by
    simp only [List.length_cons]; omega
  have h1 : parse (m :: t :: c :: rest) = .error (.InvalidTransHeader m) := by
    simp [parse, hlen1, hm]
  have h20 : tag ≠ 0x20 := fun hh => htag (Or.inl hh)
  have h22 : tag ≠ 0x22 := fun hh => htag (Or.inr (Or.inl hh))
  have hr : ¬((0x30 ≤ tag ∧ tag ≤ 0x37) ∨ (0x3D ≤ tag ∧ tag ≤ 0x3F)) :=
    fun hh => htag (Or.inr (Or.inr hh))
  have h2 : parse (0xA1 :: tag :: c :: rest) = .error (.UnknownReportType tag) := by
    simp [parse, hlen2, h20, h22, hr]
  have hpr1 : parse_report (m :: t :: c :: rest) =
      (.error (.InvalidTransHeader m), m :: t :: c :: rest) := by
    simp [parse_report, h1]
  have hpr2 : parse_report (0xA1 :: tag :: c :: rest) =
      (.error (.UnknownReportType tag), 0xA1 :: tag :: c :: rest) := by
    simp [parse_report, h2]
  refine ⟨h1, h2, ?_, ?_⟩
  · cases chunks <;> simp [read_report, hpr1]
  · cases chunks <;> simp [read_report, hpr2]

/-- C8 witness. -/
theorem C8_fatal_errors_witness :
    parse [0xA5, 0x30, 0] = .error (.InvalidTransHeader 0xA5) ∧
    parse [0xA1, 0x99, 0] = .error (.UnknownReportType 0x99) ∧
    read_report [0xA5, 0x30, 0] [] = .error (.Report (.InvalidTransHeader 0xA5)) ∧
    read_report [0xA1, 0x99, 0] [] = .error (.Report (.UnknownReportType 0x99)) := by
  exact C8_fatal_errors 0xA5 0x30 0 0x99 [] [] (by decide) (by decide)

/-- C9: a zero-length read means the peer closed the data channel.  With an
empty receive buffer, `read_report` reports a clean end of stream
(`Ok(None)`) and the run loop terminates successfully; with a non-empty
buffer it reports `ConnectionReset`, which the run loop propagates as a
failure. -/
theorem C9_zero_length_read (buf : List Nat) (cs : List (List Nat))
    (hp : (parse_report buf).1 = .ok none) :
    (buf = [] →
      read_report buf [] = .ok (none, []) ∧
      run_recv (read_report buf []) = .terminatedOk ∧
      read_report buf ([] :: cs) = .ok (none, [])) ∧
    (buf ≠ [] →
      read_report buf [] = .error .ConnectionReset ∧
      run_recv (read_report buf []) = .failed .ConnectionReset ∧
      read_report buf ([] :: cs) = .error .ConnectionReset) := by
  rcases hpp : parse_report buf with ⟨fst, r2⟩
  rw [hpp] at hp
  simp only at hp
  subst hp
  constructor
  · rintro rfl
    simp [read_report, hpp, run_recv]
  · intro hne
    have hemp : buf.isEmpty = false := by
      cases buf with
      | nil => exact absurd rfl hne
      | cons x xs => rfl
    simp [read_report, hpp, hemp, run_recv]

/-- C9 witness. -/
theorem C9_zero_length_read_witness :
    read_report [] [] = .ok (none, []) ∧
    run_recv (read_report [] []) = .terminatedOk ∧
    read_report [0xA1] [] = .error .ConnectionReset ∧
    run_recv (read_report [0xA1] []) = .failed .ConnectionReset := by
  have he := (C9_zero_length_read [] [] (by rfl)).1 rfl
  have hn := (C9_zero_length_read [0xA1] [] (by rfl)).2 (by decide)
  exact ⟨he.1, he.2.1, hn.1, hn.2.1⟩
